import Mathlib

/-
Verification development for the V1 → Vyco migration core
(modules mapeador_categorias.py, processador_dados.py, gerador_excel.py).

The pandas DataFrames of the source are embedded shallowly: a cell value is
a `Val` (string, integer, parsed timestamp, Python `None`, or float NaN);
a table is a column-name list together with a list of total row functions.
Python/pandas behaviours that the source relies on are modelled explicitly:
`str()` coercion, `strip`/`lower` (ASCII case folding; the whitespace class
is space/tab/CR/LF), first-occurrence `split(sep, 1)`, substring tests,
`dropna`/`unique` (first-seen order), `sorted` (raising on str/int
comparison), masked column assignment, and `pd.to_datetime` with
`errors="coerce"`, whose retry stages re-parse the column that the first
coercion overwrote.  The pandas Timestamp range is approximated by the
whole years 1678..2261.
-/

namespace V1Vyco

/-- A pandas cell value: string, integer (integral floats are modelled as
integers), a parsed timestamp, Python `None`, or float NaN. -/
inductive Val where
  | vstr (s : String)
  | vint (n : Int)
  | vdate (y m d : Nat)
  | vnone
  | vnan
deriving DecidableEq, Repr

/-- `pd.isna`: `None`, NaN (and NaT, which we also render as `vnan`). -/
def Val.isNA : Val → Bool
  | .vnone => true
  | .vnan => true
  | _ => false

def Val.isStr : Val → Bool
  | .vstr _ => true
  | _ => false

def Val.isInt : Val → Bool
  | .vint _ => true
  | _ => false

/-- Zero-padded two-digit rendering, as `strftime("%d")`/`("%m")`. -/
def pad2 (n : Nat) : String :=
  if n < 10 then "0" ++ toString n else toString n

/-- `strftime("%d/%m/%Y")` for a timestamp (years in range are 4 digits). -/
def fmtDMY (y m d : Nat) : String :=
  pad2 d ++ "/" ++ pad2 m ++ "/" ++ toString y

/-- Python `str()` on a cell value (`str(None) = "None"`, `str(nan) = "nan"`;
timestamps render ISO-style as pandas does). -/
def pyStr : Val → String
  | .vstr s => s
  | .vint n => toString n
  | .vdate y m d => toString y ++ "-" ++ pad2 m ++ "-" ++ pad2 d ++ " 00:00:00"
  | .vnone => "None"
  | .vnan => "nan"

/-- ASCII-folding `str.lower()`. -/
def pyLower (s : String) : String := String.mk (s.toList.map Char.toLower)

/-- Python `str.strip()` over the modelled whitespace class. -/
def pyStrip (s : String) : String :=
  String.mk (((s.toList.dropWhile Char.isWhitespace).reverse.dropWhile
    Char.isWhitespace).reverse)

/-- Is `sub` an infix of `l`?  Models Python's `sub in text`. -/
def listHasInfix (sub : List Char) : List Char → Bool
  | [] => sub.isPrefixOf []
  | c :: cs => sub.isPrefixOf (c :: cs) || listHasInfix sub cs

/-- Python's substring test `sub in hay`. -/
def hasSubstr (hay sub : String) : Bool :=
  listHasInfix sub.toList hay.toList

def splitOnceAux (sep : List Char) (acc : List Char) :
    List Char → Option (List Char × List Char)
  | [] => if sep.isPrefixOf ([] : List Char) then some (acc.reverse, []) else none
  | c :: cs =>
    if sep.isPrefixOf (c :: cs) then some (acc.reverse, (c :: cs).drop sep.length)
    else splitOnceAux sep (c :: acc) cs

/-- Python `s.split(sep, 1)` when `sep` occurs in `s`: split at the first
occurrence; `none` when `sep` does not occur. -/
def splitOnce (s sep : String) : Option (String × String) :=
  (splitOnceAux sep.toList [] s.toList).map
    (fun p => (String.mk p.1, String.mk p.2))

/-- The whitespace class used for `\s` (space/tab/CR/LF, matching `pyStrip`). -/
def isPySpace (c : Char) : Bool := c.isWhitespace

/-- Greedy `(?:\.\d+)*`: repeatedly consume a dot followed by at least one
digit.  Fuel-driven; callers pass the length of the input list. -/
def takeDotGroups : Nat → List Char → List Char × List Char
  | 0, l => ([], l)
  | Nat.succ fuel, l =>
    match l with
    | '.' :: rest =>
      let ds := rest.takeWhile Char.isDigit
      if ds.isEmpty then ([], l)
      else
        let p := takeDotGroups fuel (rest.dropWhile Char.isDigit)
        ('.' :: ds ++ p.1, p.2)
    | _ => ([], l)

/-- Shared tail of the two code-pattern regexes: `\s+(.+)$` after the code.
For an already stripped subject, `$` is the end of the string and `.` does
not cross a newline. -/
def finishCode (code r : List Char) : Option (String × String) :=
  let sp := r.takeWhile isPySpace
  let rest := r.dropWhile isPySpace
  if sp.isEmpty then none
  else if rest.isEmpty || rest.contains '\n' then none
  else some (String.mk code, String.mk rest)

/-- `re.match(r'^(\d+(?:\.\d+)*)\s+(.+)$', s)` on a stripped `s`. -/
def matchNumCode (s : String) : Option (String × String) :=
  let l := s.toList
  let ds := l.takeWhile Char.isDigit
  if ds.isEmpty then none
  else
    let p := takeDotGroups l.length (l.dropWhile Char.isDigit)
    finishCode (ds ++ p.1) p.2

/-- `re.match(r'^([A-Za-z]\d+(?:\.\d+)*)\s+(.+)$', s)` on a stripped `s`. -/
def matchAlphaCode (s : String) : Option (String × String) :=
  match s.toList with
  | [] => none
  | c :: rest =>
    if c.isAlpha then
      let ds := rest.takeWhile Char.isDigit
      if ds.isEmpty then none
      else
        let p := takeDotGroups rest.length (rest.dropWhile Char.isDigit)
        finishCode (c :: (ds ++ p.1)) p.2
    else none

/-- The fixed ordered separator list of `_limpar_categoria`. -/
def separadores : List String := [" - ", " – ", " — ", " | ", ": ", " :: "]

/-- The separator loop of `_limpar_categoria`: take the first listed
separator occurring in the text and split at its first occurrence. -/
def trySeparadores : List String → String → Option (String × String)
  | [], _ => none
  | sep :: rest, s =>
    match splitOnce s sep with
    | some p => some (pyStrip p.1, pyStrip p.2)
    | none => trySeparadores rest s

/-- The `str()` coercion at the top of `_limpar_categoria`: non-strings are
coerced with `str(x) if x is not None else ""`. -/
def coerceLimpar : Val → String
  | .vstr s => s
  | .vnone => ""
  | v => pyStr v

/-- `MapeadorCategorias._limpar_categoria`: decompose a category label into
(code, clean name). -/
def limparCategoria (v : Val) : String × String :=
  let s := pyStrip (coerceLimpar v)
  match trySeparadores separadores s with
  | some p => p
  | none =>
    match matchNumCode s with
    | some p => p
    | none =>
      match matchAlphaCode s with
      | some p => p
      | none => ("", s)

/-- The clean name of a chart entry (second component of the decomposition). -/
def limparNome (v : Val) : String := (limparCategoria v).2

/-- Modelled from the spec's words for `decompose` (§4.1): coerce, strip,
then in order (a) split on the first listed separator present, (b) leading
dotted-numeric code, (c) leading letter-plus-digits dotted code,
(d) fallback `("", trimmed input)`.  Used only to cross-check
`limparCategoria`. -/
def decomposeSpec (v : Val) : String × String :=
  let s := pyStrip (coerceLimpar v)
  match separadores.findSome?
      (fun sep => (splitOnce s sep).map (fun p => (pyStrip p.1, pyStrip p.2))) with
  | some p => p
  | none =>
    match matchNumCode s with
    | some p => p
    | none =>
      match matchAlphaCode s with
      | some p => p
      | none => ("", s)

/-! ## Tabular datasets -/

/-- A table row: a total valuation of column names.  Columns outside the
table's schema are phantom and never observed through the schema. -/
def Row : Type := String → Val

/-- Column assignment on one row (`df.loc[i, c] = v`). -/
def Row.update (r : Row) (c : String) (v : Val) : Row :=
  fun x => if x = c then v else r x

/-- A pandas DataFrame: ordered column names plus ordered rows. -/
structure DF where
  cols : List String
  rows : List Row

def DF.hasCol (df : DF) (c : String) : Bool := df.cols.contains c

/-- `df[c]` as a value list (callers only use it for existing columns). -/
def DF.getCol (df : DF) (c : String) : List Val := df.rows.map (fun r => r c)

/-- `df[c] = <per-row expression>`; a new column is appended at the end. -/
def DF.setColWith (df : DF) (c : String) (f : Row → Val) : DF :=
  { cols := if df.cols.contains c then df.cols else df.cols ++ [c],
    rows := df.rows.map (fun r => r.update c (f r)) }

/-- `df[c] = <scalar>` broadcast over the rows. -/
def DF.setColConst (df : DF) (c : String) (v : Val) : DF :=
  df.setColWith c (fun _ => v)

/-- `df[c] = <list of the same length as the frame>`. -/
def DF.setColVals (df : DF) (c : String) (vs : List Val) : DF :=
  { cols := if df.cols.contains c then df.cols else df.cols ++ [c],
    rows := List.zipWith (fun r v => Row.update r c v) df.rows vs }

/-- `df.drop(c, axis=1)`. -/
def DF.dropColumn (df : DF) (c : String) : DF :=
  { cols := df.cols.filter (fun x => x ≠ c), rows := df.rows }

/-- Column projection/reordering `df[lst]` (schemas here are duplicate-free). -/
def DF.select (df : DF) (lst : List String) : DF :=
  { cols := lst, rows := df.rows }

/-- A concrete row from explicit cells; unlisted columns read as NaN, as for
a record absent from a dict passed to `pd.DataFrame`. -/
def mkRowFn (l : List (String × Val)) : Row :=
  fun c => (((l.find? (fun p => p.1 == c)).map (fun p => p.2)).getD Val.vnan)

/-- `series.dropna()`. -/
def dropna (vs : List Val) : List Val := vs.filter (fun v => !v.isNA)

/-- `series.unique()`: distinct values in first-seen order. -/
def distinctFirst : List Val → List Val
  | [] => []
  | v :: vs => v :: (distinctFirst vs).filter (fun w => w ≠ v)

/-- Comparison used by `sorted` on homogeneous values (strings compare by
code point, as in Python). -/
def leVal : Val → Val → Bool
  | .vstr a, .vstr b => !decide (b < a)
  | .vint a, .vint b => decide (a ≤ b)
  | _, _ => true

def insertLe (v : Val) : List Val → List Val
  | [] => [v]
  | w :: ws => if leVal v w then v :: w :: ws else w :: insertLe v ws

def sortVals (vs : List Val) : List Val := vs.foldr insertLe []

/-- Python `sorted`: raises `TypeError` as soon as an `int` and a `str` must
be compared, which happens exactly when both kinds are present. -/
def pySortedE (vs : List Val) : Except String (List Val) :=
  if vs.any Val.isInt && vs.any Val.isStr then
    Except.error "TypeError: '<' not supported between instances of 'str' and 'int'"
  else Except.ok (sortVals vs)

/-! ## Category reconciler (mapeador_categorias.py) -/

/-- Keyword list of `MapeadorCategorias._encontrar_coluna_categoria`. -/
def palavrasChaveCategoria : List String :=
  ["categoria", "plano", "conta", "classificacao", "classificação",
   "nome", "descricao", "descrição", "grupo", "tipo",
   "receita", "despesa", "centro", "custo"]

/-- Object dtype of a column in this value universe: pandas keeps a column
as `object` exactly when it holds at least one string (None/NaN mixed with
numbers coerce to float64). -/
def isObjectDtype (vs : List Val) : Bool := vs.any Val.isStr

/-- `MapeadorCategorias._encontrar_coluna_categoria`: columns whose lowered,
stripped name contains a keyword; if none, the first text column whose first
non-missing value is a string longer than 2. -/
def encontrarColunaCategoria (df : DF) : List String :=
  let found := df.cols.filter
    (fun c => palavrasChaveCategoria.any (fun p => hasSubstr (pyStrip (pyLower c)) p))
  if found.isEmpty then
    match df.cols.find? (fun c =>
        let vs := df.getCol c
        isObjectDtype vs && !vs.all Val.isNA &&
          (match (dropna vs).head? with
           | some (Val.vstr s) => s.length > 2
           | _ => false)) with
    | some c => [c]
    | none => []
  else found

/-- Outcome of `encontrar_categorias_inconsistentes`: the returned list plus
the error messages shown with `st.error` (the function itself never raises;
internal exceptions are caught and turn into an empty result). -/
structure ReconRes where
  result : List Val
  erros : List String
deriving DecidableEq, Repr

/-- `MapeadorCategorias.encontrar_categorias_inconsistentes`. -/
def encontrar (txns chart : DF) (manualT manualP : Option String) : ReconRes :=
  let colT := manualT.getD "Categoria"
  match (match manualP with
         | some c => some c
         | none => (encontrarColunaCategoria chart).head?) with
  | none => ⟨[], ["Coluna de categoria não encontrada no plano de contas"]⟩
  | some colP =>
    if !chart.hasCol colP then
      ⟨[], ["Erro ao analisar categorias: KeyError"]⟩
    else if !txns.hasCol colT then
      ⟨[], ["Erro ao analisar categorias: KeyError"]⟩
    else
      let antigas := distinctFirst (dropna (txns.getCol colT))
      let novas := distinctFirst (dropna
        ((chart.getCol colP).map (fun v => Val.vstr (limparNome v))))
      let incons := antigas.filter (fun v => !novas.contains v)
      match pySortedE incons with
      | Except.ok l => ⟨l, []⟩
      | Except.error e => ⟨[], ["Erro ao analisar categorias: " ++ e]⟩

/-! ## Dates -/

def isLeap (y : Nat) : Bool := (y % 4 == 0 && y % 100 != 0) || y % 400 == 0

def daysInMonth (y m : Nat) : Nat :=
  if m = 2 then (if isLeap y then 29 else 28)
  else if m = 4 ∨ m = 6 ∨ m = 9 ∨ m = 11 then 30
  else 31

/-- The previous calendar day (`timestamp - pd.Timedelta(days=1)`). -/
def predDay (y m d : Nat) : Nat × Nat × Nat :=
  if d > 1 then (y, m, d - 1)
  else if m > 1 then (y, m - 1, daysInMonth y (m - 1))
  else (y - 1, 12, 31)

def digitsToNat (l : List Char) : Nat :=
  l.foldl (fun a c => a * 10 + (c.toNat - '0'.toNat)) 0

/-- A 1- or 2-digit numeric field (`%d`, `%m`). -/
def parseField2 (s : String) : Option Nat :=
  let l := s.toList
  if (l.length = 1 ∨ l.length = 2) ∧ l.all Char.isDigit then some (digitsToNat l)
  else none

/-- A 4-digit year field (`%Y`; shorter years fall outside the pandas
Timestamp range and coerce to NaT anyway). -/
def parseField4 (s : String) : Option Nat :=
  let l := s.toList
  if l.length = 4 ∧ l.all Char.isDigit then some (digitsToNat l) else none

/-- Calendar validity plus the pandas Timestamp range (whole years). -/
def validYMD (y m d : Nat) : Bool :=
  1678 ≤ y && y ≤ 2261 && 1 ≤ m && m ≤ 12 && 1 ≤ d && d ≤ daysInMonth y m

/-- Split a character list on a separator character (as `s.split("/")`). -/
def splitCharAux (sep : Char) (acc : List Char) :
    List Char → List (List Char)
  | [] => [acc.reverse]
  | c :: cs =>
    if c = sep then acc.reverse :: splitCharAux sep [] cs
    else splitCharAux sep (c :: acc) cs

def splitSlash (s : String) : List String :=
  (splitCharAux '/' [] s.toList).map String.mk

/-- `pd.to_datetime(s, format="%d/%m/%Y", errors="coerce")` on one string. -/
def parseDMY (s : String) : Option Val :=
  match splitSlash s with
  | [a, b, c] =>
    match parseField2 a, parseField2 b, parseField4 c with
    | some d, some m, some y =>
      if validYMD y m d then some (Val.vdate y m d) else none
    | _, _, _ => none
  | _ => none

/-- `pd.to_datetime(s, format="%m/%d/%Y", errors="coerce")` on one string. -/
def parseMDY (s : String) : Option Val :=
  match splitSlash s with
  | [a, b, c] =>
    match parseField2 a, parseField2 b, parseField4 c with
    | some m, some d, some y =>
      if validYMD y m d then some (Val.vdate y m d) else none
    | _, _, _ => none
  | _ => none

/-- Apply a string-format parser to a cell (non-strings coerce to NaT). -/
def parseCell (f : String → Option Val) : Val → Option Val
  | .vstr s => f s
  | _ => none

/-- Chronological order on parsed dates (lexicographic on (y, m, d)). -/
def dateLe : Val → Val → Bool
  | .vdate y1 m1 d1, .vdate y2 m2 d2 =>
    y1 < y2 || (y1 == y2 && (m1 < m2 || (m1 == m2 && d1 ≤ d2)))
  | _, _ => true

/-- `series.min()` skipping NaT: minimum of the parsed dates, if any. -/
def minDate : List Val → Option Val
  | [] => none
  | v :: vs =>
    match minDate vs with
    | none => some v
    | some w => some (if dateLe v w then v else w)

/-- `pd.to_datetime` applied to a value of an already-coerced datetime64
column (the retries of `_processar_contas_correntes` read the column that
the first pass overwrote): datetimes pass through unchanged and NaT stays
NaT, with or without a format — the identity on parsed cells. -/
def reparseDatetime : Option Val → Option Val
  | some v => some v
  | none => none

/-- The staged column-level parse of `_processar_contas_correntes`.  The
first pass overwrites the column with the %d/%m/%Y coercion; each retry
(%m/%d/%Y, then automatic inference), guarded by `isna().all()`, re-parses
that already-overwritten column, so a value the first format rejected is
NaT for the retries as well. -/
def stagedParse (raw : List Val) : List (Option Val) :=
  let p1 := raw.map (parseCell parseDMY)
  let p2 := if p1.all Option.isNone then p1.map reparseDatetime else p1
  if p2.all Option.isNone then p2.map reparseDatetime else p2

/-- Modelled from the spec's words (§4.2, claim C9): the prioritized-format
parsing as the claim describes it, each fallback re-parsing the original
raw values — %d/%m/%Y, then %m/%d/%Y, then a best-effort automatic pass
(`auto`, kept abstract; missing values are NaT under every stage).  Used
only to exhibit the divergence from `stagedParse`. -/
def stagedParseSpec (auto : Val → Option Val) (raw : List Val) :
    List (Option Val) :=
  let p1 := raw.map (parseCell parseDMY)
  if p1.any Option.isSome then p1
  else
    let p2 := raw.map (parseCell parseMDY)
    if p2.any Option.isSome then p2
    else raw.map (fun v => if v.isNA then none else auto v)

def odateToVal : Option Val → Val
  | some v => v
  | none => Val.vnan

/-! ## Record transformer (processador_dados.py) -/

/-- Category-column discovery of `_aplicar_mapeamento_categorias`. -/
def colunasCategoria (df : DF) : List String :=
  df.cols.filter (fun c =>
    c == "Categoria" ||
    (hasSubstr (pyLower c) "categoria" && !hasSubstr (pyLower c) "codigo") ||
    hasSubstr (pyLower c) "plano")

/-- One masked substitution step `df.loc[df[c] == old, c] = new`, per row. -/
def mapStep (v : Val) (p : String × String) : Val :=
  if v = Val.vstr p.1 then Val.vstr p.2 else v

/-- `ProcessadorDados._aplicar_mapeamento_categorias`: each mapping entry is
applied in turn over the whole (already partially substituted) column. -/
def aplicarMapeamento (df : DF) (m : List (String × String)) : DF :=
  match colunasCategoria df with
  | [] => df
  | c :: _ =>
    { cols := df.cols,
      rows := df.rows.map (fun r => r.update c (m.foldl mapStep (r c))) }

/-- Alias columns tried for a code column in `_processar_categorias`. -/
def aliasCodigo (df : DF) : Option String :=
  (["Código", "Code", "ID", "Código Pai"]).find? (fun c => df.hasCol c)

/-- The `" - "` split used by `_processar_categorias` on the name column
(only this separator, unlike `_limpar_categoria`). -/
def splitCodigoNome (v : Val) : String × String :=
  match v with
  | Val.vstr s =>
    match splitOnce s " - " with
    | some p => (pyStrip p.1, pyStrip p.2)
    | none => ("", s)
  | Val.vnone => ("", "")
  | v => ("", pyStr v)

/-- Indexed map used to model row construction from `range(1, n + 1)`. -/
def mapIdx (f : Nat → α → β) : Nat → List α → List β
  | _, [] => []
  | i, a :: as => f i a :: mapIdx f (i + 1) as

/-- `ProcessadorDados._processar_categorias`. -/
def processarCategorias (df : DF) : DF :=
  let df1 :=
    if df.hasCol "Codigo" then df
    else
      match aliasCodigo df with
      | some c => df.setColWith "Codigo" (fun r => r c)
      | none =>
        if df.hasCol "Nome" then
          let ps := (df.getCol "Nome").map splitCodigoNome
          (df.setColVals "Codigo" (ps.map (fun p => Val.vstr p.1))).setColVals
            "Nome" (ps.map (fun p => Val.vstr p.2))
        else
          df.setColVals "Codigo"
            (mapIdx (fun i _ => Val.vint (Int.ofNat i + 1)) 0 df.rows)
  let df2 :=
    if df1.hasCol "Nome" then df1
    else
      match df1.cols.find? (fun c => hasSubstr (pyLower c) "nome") with
      | some nomeCol => df1.setColWith "Nome" (fun r => r nomeCol)
      | none =>
        df1.setColWith "Nome" (fun r => Val.vstr ("Categoria " ++ pyStr (r "Codigo")))
  let finais := "Codigo" :: "Nome" :: df2.cols.filter (fun c =>
    c ≠ "Codigo" && c ≠ "Nome" &&
      (pyLower c == "tipo" || pyLower c == "ativo" || pyLower c == "descricao"))
  df2.select finais

/-- `ProcessadorDados._processar_centros_custo`. -/
def processarCentrosCusto (df : DF) : DF :=
  match df.cols.find? (fun c =>
      hasSubstr (pyLower c) "centro" && hasSubstr (pyLower c) "custo") with
  | none => ⟨["Codigo", "Nome", "Ativo"], []⟩
  | some col =>
    let centros := distinctFirst (dropna (df.getCol col))
    ⟨["Codigo", "Nome", "Ativo"],
     mapIdx (fun i v => mkRowFn
       [("Codigo", Val.vint (Int.ofNat i + 1)), ("Nome", v), ("Ativo", Val.vstr "Sim")])
       0 centros⟩

def isContaCol (c : String) : Bool :=
  hasSubstr (pyLower c) "conta" || hasSubstr (pyLower c) "banco"

def isDataCol (c : String) : Bool :=
  hasSubstr (pyLower c) "data" && pyLower c ≠ "datacompetencia"

/-- The dates attached to one account: the staged-parsed date cells of the
rows whose account cell equals the account. -/
def datasDaConta (rowsParsed : List Row) (cc dc : String) (a : Val) : List Val :=
  (rowsParsed.filter (fun r => r cc == a)).filterMap (fun r =>
    match r dc with
    | Val.vdate y m d => some (Val.vdate y m d)
    | _ => none)

/-- Opening date of one account: earliest parsed date minus one day,
rendered `%d/%m/%Y`; blank when no date parsed. -/
def dataInicialDaConta (rowsParsed : List Row) (cc dc : String) (a : Val) : Val :=
  match minDate (datasDaConta rowsParsed cc dc a) with
  | some (Val.vdate y m d) =>
    let p := predDay y m d
    Val.vstr (fmtDMY p.1 p.2.1 p.2.2)
  | _ => Val.vstr ""

/-- The rows of the frame copy whose date column has been replaced by the
staged parse (`dados_com_data`). -/
def rowsParsedCC (df : DF) (dc : String) : List Row :=
  List.zipWith (fun r o => Row.update r dc (odateToVal o)) df.rows
    (stagedParse (df.getCol dc))

/-- `dados_com_data[coluna_conta].dropna().unique()`. -/
def contasCC (df : DF) (cc dc : String) : List Val :=
  distinctFirst (dropna ((rowsParsedCC df dc).map (fun r => r cc)))

/-- `ProcessadorDados._processar_contas_correntes`. -/
def processarContasCorrentes (df : DF) : DF :=
  match df.cols.find? isContaCol with
  | none => ⟨["Codigo", "Nome", "Tipo", "Ativo", "DataInicial"], []⟩
  | some cc =>
    match df.cols.find? isDataCol with
    | none =>
      let contas := distinctFirst (dropna (df.getCol cc))
      ⟨["Codigo", "Nome", "Tipo", "Ativo", "DataInicial"],
       mapIdx (fun i v => mkRowFn
         [("Codigo", Val.vint (Int.ofNat i + 1)), ("Nome", v), ("Tipo", Val.vint 1),
          ("Ativo", Val.vstr "Sim"), ("DataInicial", Val.vstr "")]) 0 contas⟩
    | some dc =>
      let contas := contasCC df cc dc
      if contas.isEmpty then ⟨["Codigo"], []⟩
      else
        ⟨["Nome", "Tipo", "Ativo", "DataInicial", "Codigo"],
         mapIdx (fun i a => mkRowFn
           [("Nome", a), ("Tipo", Val.vint 1), ("Ativo", Val.vstr "Sim"),
            ("DataInicial", dataInicialDaConta (rowsParsedCC df dc) cc dc a),
            ("Codigo", Val.vint (Int.ofNat i + 1))]) 0 contas⟩

/-- Output schema of the contacts table. -/
def colunasContato : List String :=
  ["Nome", "Tipo", "Documento", "E-mail", "Enviar e-mail?",
   "Telefone Residencial", "Telefone Comercial", "Telefone Celular",
   "Contribuinte ICMS?", "Inscrição Estadual", "Inscrição Municipal"]

/-- `ProcessadorDados._processar_contatos`. -/
def processarContatos (df : DF) : DF :=
  let found := df.cols.filter (fun c =>
    (["contato", "cliente", "fornecedor", "pessoa", "empresa"]).any
      (fun p => hasSubstr (pyLower c) p))
  let found := if found.isEmpty && df.cols.contains "Contato" then ["Contato"]
    else found
  match found.head? with
  | none => ⟨colunasContato, []⟩
  | some col =>
    let unicos := distinctFirst ((dropna (df.getCol col)).filter
      (fun v => v ≠ Val.vstr ""))
    let data := unicos.filter (fun v => !v.isNA && pyStrip (pyStr v) ≠ "")
    if data.isEmpty then ⟨[], []⟩
    else
      ⟨colunasContato,
       data.map (fun v => mkRowFn
         [("Nome", Val.vstr (pyStrip (pyStr v))), ("Tipo", Val.vint 0),
          ("Documento", Val.vstr ""), ("E-mail", Val.vstr ""),
          ("Enviar e-mail?", Val.vstr ""), ("Telefone Residencial", Val.vstr ""),
          ("Telefone Comercial", Val.vstr ""), ("Telefone Celular", Val.vstr ""),
          ("Contribuinte ICMS?", Val.vstr ""), ("Inscrição Estadual", Val.vstr ""),
          ("Inscrição Municipal", Val.vstr "")])⟩

/-- `ProcessadorDados._processar_lancamentos`.  The columnwise assignments of
the source are modelled per row (each output column is either a copied source
column or a broadcast default, with the final `fillna` folded in). -/
def processarLancamentos (df : DF) : DF :=
  ⟨["Confirmado", "Data", "Valor", "Categoria", "Data Emissão", "Valor Emissão",
    "Repetição", "Total Parcelas", "Descrição", "Centro de Custo",
    "Conta Corrente", "Contato"],
   df.rows.map (fun r => mkRowFn
     [("Confirmado",
        let v := if df.hasCol "Confirmado" then r "Confirmado" else Val.vstr "Sim"
        if v.isNA then Val.vstr "Sim" else v),
      ("Data", if df.hasCol "Data" then r "Data" else Val.vstr ""),
      ("Valor",
        let v := if df.hasCol "Valor" then r "Valor" else Val.vint 0
        if v.isNA then Val.vint 0 else v),
      ("Categoria",
        let v := if df.hasCol "Categoria" then r "Categoria" else Val.vstr ""
        if v.isNA then Val.vstr "" else v),
      ("Data Emissão", Val.vnone),
      ("Valor Emissão", Val.vnone),
      ("Repetição", Val.vint 0),
      ("Total Parcelas", if df.hasCol "Parcela" then r "Parcela" else Val.vint 1),
      ("Descrição", if df.hasCol "Descricao" then r "Descricao" else Val.vstr ""),
      ("Centro de Custo",
        if df.hasCol "CentroDeCusto" then r "CentroDeCusto" else Val.vnone),
      ("Conta Corrente", if df.hasCol "Conta" then r "Conta" else Val.vnone),
      ("Contato", if df.hasCol "Contato" then r "Contato" else Val.vnone)])⟩

/-- The `"<source> para <destination>"` split of `_processar_transferencias`
on one movement cell: split at the first `" para "`, trim both sides; blank
pair for missing values or values without the separator. -/
def movSplit (v : Val) : String × String :=
  if v.isNA || !hasSubstr (pyStr v) " para " then ("", "")
  else
    match splitOnce (pyStr v) " para " with
    | some p => (pyStrip p.1, pyStrip p.2)
    | none => ("", "")

/-- Required transfer schema and its defaults (`Data` defaults to the run's
current date `hoje`, `Valor` to zero, the rest to blank). -/
def transferModelo : List String :=
  ["Data", "Valor", "Descrição", "Conta Débito", "Conta Crédito"]

def transferDefault (hoje : String) (c : String) : Val :=
  if c = "Data" then Val.vstr hoje
  else if c = "Valor" then Val.vint 0
  else Val.vstr ""

/-- The missing-column loop shared by `_processar_transferencias` (with
per-column defaults) and `_garantir_colunas` (with blank defaults). -/
def addMissing (deflt : String → Val) (df : DF) : List String → DF
  | [] => df
  | c :: cs =>
    addMissing deflt (if df.hasCol c then df else df.setColConst c (deflt c)) cs

/-- `ProcessadorDados._processar_transferencias`; `hoje` is the formatted
`datetime.now()` of the run. -/
def processarTransferencias (hoje : String) (df : DF) : DF :=
  if df.rows.isEmpty || df.cols.isEmpty then ⟨transferModelo, []⟩
  else
    let df1 :=
      if df.hasCol "Movimentação" then
        (((df.setColVals "Conta Débito"
            ((df.getCol "Movimentação").map (fun v => Val.vstr (movSplit v).1))).setColVals
          "Conta Crédito"
            ((df.getCol "Movimentação").map (fun v => Val.vstr (movSplit v).2))).dropColumn
          "Movimentação")
      else df
    (addMissing (transferDefault hoje) df1 transferModelo).select transferModelo

/-- The six outputs of one full run. -/
structure ProcRes where
  categorias : DF
  centrosCusto : DF
  contasCorrentes : DF
  contatos : DF
  lancamentos : DF
  transferencias : DF

/-- `ProcessadorDados.processar_todos_os_dados`; `hoje` is the formatted
current date of the run. -/
def processarTodos (hoje : String)
    (lanc transf cat : DF) (m : List (String × String)) : ProcRes :=
  let lanc1 := if m.isEmpty then lanc else aplicarMapeamento lanc m
  { categorias := processarCategorias cat,
    centrosCusto := processarCentrosCusto lanc1,
    contasCorrentes := processarContasCorrentes lanc1,
    contatos := processarContatos lanc1,
    lancamentos := processarLancamentos lanc1,
    transferencias := processarTransferencias hoje transf }

/-! ## Schema normalizer (gerador_excel.py) -/

/-- `GeradorExcel._garantir_colunas`: add missing columns as blank, then
project to the expected list. -/
def garantirColunas (df : DF) (esperadas : List String) : DF :=
  let df1 := addMissing (fun _ => Val.vstr "") df esperadas
  df1.select (esperadas.filter (fun c => df1.hasCol c))

/-! ## Concrete tables used by witnesses and counterexamples -/

/-- Best-effort automatic date detection that recognises nothing; any fixed
choice is legitimate for instantiating the spec-side `stagedParseSpec`. -/
def autoNone : Val → Option Val := fun _ => none

/-- One-row transactions table whose only date is in month/day/year form:
the claimed %m/%d/%Y fallback would parse it, the program does not. -/
def lancMDY : DF := ⟨["Conta", "Data"],
  [mkRowFn [("Conta", Val.vstr "B1"), ("Data", Val.vstr "12/25/2024")]]⟩

def txnsC1 : DF := ⟨["Categoria", "Valor"],
  [mkRowFn [("Categoria", Val.vstr "Receita Vendas"), ("Valor", Val.vint 10)],
   mkRowFn [("Categoria", Val.vstr "Despesa X"), ("Valor", Val.vint 5)]]⟩

def chartC1 : DF := ⟨["Categoria"],
  [mkRowFn [("Categoria", Val.vstr "Despesa X")]]⟩

/-- Transactions whose category column mixes an integer and a string. -/
def txnsMix : DF := ⟨["Categoria"],
  [mkRowFn [("Categoria", Val.vint 5)], mkRowFn [("Categoria", Val.vstr "x")]]⟩

/-- A chart whose only clean name is "nope". -/
def chartNope : DF := ⟨["Categoria"],
  [mkRowFn [("Categoria", Val.vstr "nope")]]⟩

/-- Transactions without the required "Categoria" column. -/
def txnsSemCategoria : DF := ⟨["Foo"], [mkRowFn [("Foo", Val.vstr "bar")]]⟩

def lancC4 : DF := ⟨["Categoria", "Valor"],
  [mkRowFn [("Categoria", Val.vstr "Receita Vendas"), ("Valor", Val.vint 10)],
   mkRowFn [("Categoria", Val.vstr "Outra"), ("Valor", Val.vint 7)]]⟩

/-- One-row transactions table whose category is "A". -/
def lancChain : DF := ⟨["Categoria"], [mkRowFn [("Categoria", Val.vstr "A")]]⟩

/-- Transfers table lacking the "Data" column. -/
def transfSemData : DF := ⟨["Valor"], [mkRowFn [("Valor", Val.vint 10)]]⟩

def lancC5 : DF := ⟨["Categoria"], [mkRowFn [("Categoria", Val.vstr "c")]]⟩

def catC5 : DF := ⟨["Nome"], [mkRowFn [("Nome", Val.vstr "1 - x")]]⟩

/-- Chart with only a name column whose entry has no code prefix. -/
def catSoNome : DF := ⟨["Nome"], [mkRowFn [("Nome", Val.vstr "ÁGUA")]]⟩

/-- Chart with neither a code-like nor a name-like column. -/
def catSemNada : DF := ⟨["Foo"],
  [mkRowFn [("Foo", Val.vstr "a")], mkRowFn [("Foo", Val.vstr "b")]]⟩

def tabelaC7 : DF := ⟨["X", "Nome"],
  [mkRowFn [("X", Val.vint 1), ("Nome", Val.vstr "n")]]⟩

def transfC8 : DF := ⟨["Movimentação", "Valor"],
  [mkRowFn [("Movimentação", Val.vstr "Banco A para Banco B"),
            ("Valor", Val.vint 3)]]⟩

def lancC9 : DF := ⟨["Conta", "Data"],
  [mkRowFn [("Conta", Val.vstr "B1"), ("Data", Val.vstr "02/01/2024")],
   mkRowFn [("Conta", Val.vstr "B1"), ("Data", Val.vstr "15/03/2024")],
   mkRowFn [("Conta", Val.vstr "B2"), ("Data", Val.vstr "not a date")]]⟩

/-! ## Helper lemmas -/

theorem trySeparadores_eq_findSome? (l : List String) (s : String) :
    trySeparadores l s =
      l.findSome? (fun sep => (splitOnce s sep).map (fun p => (pyStrip p.1, pyStrip p.2))) := by
  induction l with
  | nil => rfl
  | cons sep rest ih =>
    rw [List.findSome?_cons]
    simp only [trySeparadores]
    cases splitOnce s sep <;> simp [ih]

theorem mem_distinctFirst {v : Val} {l : List Val} :
    v ∈ distinctFirst l ↔ v ∈ l := by
  induction l with
  | nil => simp [distinctFirst]
  | cons w ws ih =>
    by_cases hv : v = w
    · subst hv; simp [distinctFirst]
    · simp [distinctFirst, List.mem_filter, hv, ih]

theorem mem_dropna {v : Val} {l : List Val} :
    v ∈ dropna l ↔ v ∈ l ∧ v.isNA = false := by
  simp [dropna, List.mem_filter]

theorem mem_insertLe {v w : Val} {l : List Val} :
    v ∈ insertLe w l ↔ v = w ∨ v ∈ l := by
  induction l with
  | nil => simp [insertLe]
  | cons x xs ih =>
    simp only [insertLe]
    by_cases h : leVal w x = true
    · rw [if_pos h]
      simp [List.mem_cons]
    · rw [if_neg h]
      simp only [List.mem_cons, ih]
      tauto

theorem mem_sortVals {v : Val} {l : List Val} :
    v ∈ sortVals l ↔ v ∈ l := by
  induction l with
  | nil => simp [sortVals]
  | cons w ws ih =>
    simp only [sortVals, List.foldr_cons] at *
    rw [mem_insertLe, ih, List.mem_cons]

theorem hasCol_of_mem_encontrarColunaCategoria {df : DF} {c : String}
    (h : c ∈ encontrarColunaCategoria df) : df.hasCol c = true := by
  unfold encontrarColunaCategoria at h
  by_cases he : (df.cols.filter
      (fun c => palavrasChaveCategoria.any (fun p => hasSubstr (pyStrip (pyLower c)) p))).isEmpty
  · simp only [he, if_pos] at h
    split at h
    · next c2 hf =>
      simp only [List.mem_singleton] at h
      subst h
      simp [DF.hasCol, List.find?_some hf, List.mem_of_find?_eq_some hf]
    · simp at h
  · simp only [he, if_neg, Bool.false_eq_true, if_false] at h
    simp [DF.hasCol, List.mem_of_mem_filter h]

theorem get?_zipWith {α β γ : Type} (f : α → β → γ) (l : List α) (l2 : List β)
    (i : Nat) :
    (List.zipWith f l l2).get? i =
      (l.get? i).bind (fun a => (l2.get? i).map (f a)) := by
  induction l generalizing l2 i with
  | nil => simp
  | cons a as ih =>
    cases l2 with
    | nil => simp
    | cons b bs =>
      cases i with
      | zero => simp
      | succ j => simpa using ih bs j

theorem get?_mapIdx {α β : Type} (f : Nat → α → β) (k : Nat) (l : List α)
    (i : Nat) :
    (mapIdx f k l).get? i = (l.get? i).map (f (k + i)) := by
  induction l generalizing k i with
  | nil => simp [mapIdx]
  | cons a as ih =>
    cases i with
    | zero => simp [mapIdx]
    | succ j =>
      simp only [mapIdx, List.get?_cons_succ, ih (k + 1) j]
      have : k + 1 + j = k + (j + 1) := by omega
      rw [this]

theorem addMissing_hasCol (deflt : String → Val) (lst : List String) (df : DF)
    (x : String) :
    (addMissing deflt df lst).hasCol x = (df.hasCol x || decide (x ∈ lst)) := by
  induction lst generalizing df with
  | nil => simp [addMissing]
  | cons c cs ih =>
    simp only [addMissing]
    by_cases hc : df.hasCol c = true
    · rw [if_pos hc, ih]
      by_cases hx : x = c
      · subst hx; simp [hc]
      · simp [hx]
    · rw [if_neg hc, ih]
      have hcf : df.cols.contains c = false := by
        rw [← Bool.not_eq_true]; exact hc
      have hcols : (df.setColConst c (deflt c)).cols = df.cols ++ [c] := by
        unfold DF.setColConst DF.setColWith
        rw [hcf]
        simp
      by_cases hx : x = c
      · subst hx
        simp [DF.hasCol, hcols]
      · simp [DF.hasCol, hcols, hx]

theorem addMissing_rows_get? (deflt : String → Val) (lst : List String) (df : DF)
    (i : Nat) :
    (addMissing deflt df lst).rows.get? i =
      (df.rows.get? i).map (fun r x =>
        if df.hasCol x = false ∧ x ∈ lst then deflt x else r x) := by
  induction lst generalizing df with
  | nil =>
    simp only [addMissing]
    cases h : df.rows.get? i with
    | none => simp
    | some r => simp
  | cons c cs ih =>
    simp only [addMissing]
    by_cases hc : df.hasCol c = true
    · rw [if_pos hc, ih]
      cases h : df.rows.get? i with
      | none => simp
      | some r =>
        simp only [Option.map_some']
        congr 1
        funext x
        by_cases hx : x = c
        · subst hx; simp [hc]
        · simp [hx]
    · rw [if_neg hc, ih]
      have hrows : (df.setColConst c (deflt c)).rows.get? i =
          (df.rows.get? i).map (fun r => r.update c (deflt c)) := by
        simp [DF.setColConst, DF.setColWith]
      have hcf : df.cols.contains c = false := by
        rw [← Bool.not_eq_true]; exact hc
      have hhas : ∀ x, (df.setColConst c (deflt c)).hasCol x =
          (df.hasCol x || decide (x = c)) := by
        intro x
        simp only [DF.setColConst, DF.setColWith, hcf, Bool.false_eq_true,
          if_false, DF.hasCol]
        by_cases hx : x = c
        · subst hx; simp
        · simp [hx]
      rw [hrows]
      cases h : df.rows.get? i with
      | none => simp
      | some r =>
        simp only [Option.map_some']
        congr 1
        funext x
        by_cases hx : x = c
        · rw [hx]
          have hpres : (df.setColConst c (deflt c)).hasCol c = true := by
            simp [hhas]
          simp [hpres, Row.update, hc]
        · have hsame : (df.setColConst c (deflt c)).hasCol x = df.hasCol x := by
            simp [hhas, hx]
          simp [hsame, Row.update, hx]

theorem addMissing_of_all_present (deflt : String → Val) (lst : List String)
    (df : DF) (h : ∀ c ∈ lst, df.hasCol c = true) : addMissing deflt df lst = df := by
  induction lst with
  | nil => rfl
  | cons c cs ih =>
    simp only [addMissing, if_pos (h c (List.mem_cons_self c cs))]
    exact ih (fun x hx => h x (List.mem_cons_of_mem c hx))

theorem foldl_mapStep_of_not_key (m : List (String × String)) (v : Val)
    (h : ∀ p ∈ m, v ≠ Val.vstr p.1) : m.foldl mapStep v = v := by
  induction m with
  | nil => rfl
  | cons p ps ih =>
    have h1 : v ≠ Val.vstr p.1 := h p (List.mem_cons_self p ps)
    simp only [List.foldl_cons, mapStep, if_neg h1]
    exact ih (fun q hq => h q (List.mem_cons_of_mem p hq))

theorem mem_of_head?_eq_some {α : Type} {l : List α} {a : α}
    (h : l.head? = some a) : a ∈ l := by
  cases l with
  | nil => simp at h
  | cons x xs =>
    simp only [List.head?] at h
    injection h with h
    simp [h]

theorem contains_eq_decide_mem {α : Type} [DecidableEq α] (l : List α) (a : α) :
    l.contains a = decide (a ∈ l) := by
  by_cases h : a ∈ l <;> simp [h]

theorem setColVals_hasCol (df : DF) (c : String) (vs : List Val) (x : String) :
    (df.setColVals c vs).hasCol x = (df.hasCol x || decide (x = c)) := by
  unfold DF.setColVals DF.hasCol
  by_cases hc : df.cols.contains c = true
  · rw [if_pos hc]
    by_cases hx : x = c
    · rw [hx, hc]
      simp
    · simp [hx]
  · rw [if_neg hc]
    rw [contains_eq_decide_mem, contains_eq_decide_mem]
    by_cases hx : x = c
    · rw [hx]
      simp
    · simp [hx, List.mem_append]

theorem dropColumn_hasCol (df : DF) (c x : String) :
    (df.dropColumn c).hasCol x = (df.hasCol x && !(x == c)) := by
  unfold DF.dropColumn DF.hasCol
  rw [contains_eq_decide_mem, contains_eq_decide_mem]
  by_cases hx : x = c
  · simp [hx, List.mem_filter]
  · simp [hx, List.mem_filter]

theorem setColVals_rows_get? (df : DF) (c : String) (vs : List Val) (i : Nat) :
    (df.setColVals c vs).rows.get? i =
      (df.rows.get? i).bind (fun r => (vs.get? i).map (fun v => r.update c v)) := by
  unfold DF.setColVals
  exact get?_zipWith _ df.rows vs i

theorem select_rows (df : DF) (l : List String) : (df.select l).rows = df.rows :=
  rfl

theorem select_cols (df : DF) (l : List String) : (df.select l).cols = l :=
  rfl

theorem dropColumn_rows (df : DF) (c : String) :
    (df.dropColumn c).rows = df.rows :=
  rfl

theorem DF_eq_of (a b : DF) (hc : a.cols = b.cols) (hr : a.rows = b.rows) :
    a = b := by
  cases a
  cases b
  simp_all

theorem addMissing_rows_length (deflt : String → Val) (lst : List String)
    (df : DF) : (addMissing deflt df lst).rows.length = df.rows.length := by
  induction lst generalizing df with
  | nil => rfl
  | cons c cs ih =>
    simp only [addMissing]
    by_cases hc : df.hasCol c = true
    · rw [if_pos hc, ih]
    · rw [if_neg hc, ih]
      simp [DF.setColConst, DF.setColWith]

/-! ## Claim C2 -/

/-- C2: `decompose` (`_limpar_categoria`) is total for every input (null and
non-string values coerced first, null to the empty string) and follows the
spec's staged algorithm — separator list in order, dotted-numeric code,
letter-plus-digits code, fallback `("", trimmed input)` — with
`decompose("2.2.1 - ÁGUA") = ("2.2.1", "ÁGUA")` and
`decompose("ÁGUA") = ("", "ÁGUA")`. -/
theorem C2_decompose_total_staged :
    (∀ v, limparCategoria v = decomposeSpec v) ∧
    (∀ v, limparCategoria v = limparCategoria (Val.vstr (coerceLimpar v))) ∧
    limparCategoria (Val.vstr "2.2.1 - ÁGUA") = ("2.2.1", "ÁGUA") ∧
    limparCategoria (Val.vstr "ÁGUA") = ("", "ÁGUA") ∧
    limparCategoria Val.vnone = ("", "") ∧
    limparCategoria (Val.vint 7) = ("", "7") := by
  refine ⟨fun v => ?_, fun v => rfl, by decide, by decide, by decide, by decide⟩
  unfold limparCategoria decomposeSpec
  simp only [trySeparadores_eq_findSome?]

/-! ## Claim C10 -/

/-- C10: `_aplicar_mapeamento_categorias` applies the mapping entries
sequentially over the same table, so with the mapping A ↦ B followed by
B ↦ C a row whose original category is "A" ends with "C", not "B". -/
theorem C10_sequential_chaining :
    ((aplicarMapeamento lancChain [("A", "B"), ("B", "C")]).rows.map
        (fun r => r "Categoria")) = [Val.vstr "C"] ∧
    ((aplicarMapeamento lancChain [("A", "B"), ("B", "C")]).rows.map
        (fun r => r "Categoria")) ≠ [Val.vstr "B"] := by
  constructor
  · decide
  · decide

/-! ## Claim C5 -/

/-- C5 (failing-input evaluation): with a non-empty transfers table lacking
the "Data" column the pipeline writes the run's current date into every
transfer, so two runs on identical inputs but different days produce
different transfer tables — re-run determinism fails. -/
theorem C5_transfers_depend_on_clock :
    ((processarTodos "01/01/2024" lancC5 transfSemData catC5
        []).transferencias.rows.map (fun r => r "Data")) =
      [Val.vstr "01/01/2024"] ∧
    ((processarTodos "02/01/2024" lancC5 transfSemData catC5
        []).transferencias.rows.map (fun r => r "Data")) =
      [Val.vstr "02/01/2024"] ∧
    ((processarTodos "01/01/2024" lancC5 transfSemData catC5
        []).transferencias.rows.map (fun r => r "Data")) ≠
      ((processarTodos "02/01/2024" lancC5 transfSemData catC5
        []).transferencias.rows.map (fun r => r "Data")) := by
  refine ⟨by decide, by decide, by decide⟩

/-! ## Claim C1 -/

/-- C1 (counterexample to the claim as stated): when the transaction
category column mixes an integer with a string, both values are absent from
the chart's clean names, so the claim demands the result contain them; the
code's final `sorted` raises a `TypeError`, the exception handler reports it
and an empty list is returned instead. -/
theorem C1_counterexample :
    txnsMix.hasCol "Categoria" = true ∧
    Val.vint 5 ∈ txnsMix.getCol "Categoria" ∧
    (Val.vint 5).isNA = false ∧
    (∀ w ∈ chartNope.getCol "Categoria", Val.vstr (limparNome w) ≠ Val.vint 5) ∧
    (encontrar txnsMix chartNope none none).result = [] ∧
    Val.vint 5 ∉ (encontrar txnsMix chartNope none none).result := by
  refine ⟨by decide, by decide, by decide, by decide, by decide, by decide⟩

/-- C1 (amended): for transactions whose non-missing category values are all
strings (so the final `sorted` cannot raise), `find_inconsistent` returns
exactly the distinct non-missing transaction category values that do not
occur, case-sensitively, among the decomposed clean names of the chart
entries in the discovered chart column. -/
theorem C1_amended (txns chart : DF) (c0 : String)
    (hd : (encontrarColunaCategoria chart).head? = some c0)
    (ht : txns.hasCol "Categoria" = true)
    (hs : ∀ v ∈ txns.getCol "Categoria", v.isNA = false → v.isStr = true)
    (v : Val) :
    v ∈ (encontrar txns chart none none).result ↔
      (v ∈ txns.getCol "Categoria" ∧ v.isNA = false ∧
       ∀ w ∈ chart.getCol c0, Val.vstr (limparNome w) ≠ v) := by
  have hcc : chart.hasCol c0 = true :=
    hasCol_of_mem_encontrarColunaCategoria (mem_of_head?_eq_some hd)
  unfold encontrar
  simp only [hd, hcc, ht, Bool.not_true, Bool.false_eq_true, if_false,
    Option.getD]
  have hnoint :
      ((distinctFirst (dropna (txns.getCol "Categoria"))).filter
        (fun u => !(distinctFirst (dropna ((chart.getCol c0).map
          (fun w => Val.vstr (limparNome w))))).contains u)).any Val.isInt = false := by
    rw [List.any_eq_false]
    intro u hu
    have h1 := (List.mem_filter.mp hu).1
    have h2 := mem_dropna.mp (mem_distinctFirst.mp h1)
    have h4 := hs u h2.1 h2.2
    cases u <;> simp_all [Val.isStr, Val.isInt]
  simp only [pySortedE, hnoint, Bool.false_and, Bool.false_eq_true, if_false]
  rw [mem_sortVals, List.mem_filter, mem_distinctFirst, mem_dropna]
  have hnovas :
      ((!(distinctFirst (dropna ((chart.getCol c0).map
          (fun w => Val.vstr (limparNome w))))).contains v) = true) ↔
        (∀ w ∈ chart.getCol c0, Val.vstr (limparNome w) ≠ v) := by
    rw [Bool.not_eq_true', contains_eq_decide_mem, decide_eq_false_iff_not]
    rw [mem_distinctFirst, mem_dropna]
    constructor
    · intro hn w hw heq
      exact hn ⟨List.mem_map.mpr ⟨w, hw, heq⟩, by
        rw [← heq]; rfl⟩
    · intro hall ⟨hm, _⟩
      obtain ⟨w, hw, heq⟩ := List.mem_map.mp hm
      exact hall w hw heq
  rw [hnovas]
  tauto

/-- C1 witness: the spec's own concrete instance — transaction categories
{"Receita Vendas", "Despesa X"} against the chart clean name "Despesa X"
yield exactly {"Receita Vendas"}. -/
theorem C1_amended_witness :
    (Val.vstr "Receita Vendas" ∈ (encontrar txnsC1 chartC1 none none).result ∧
      Val.vstr "Receita Vendas" ∈ txnsC1.getCol "Categoria") ∧
    (encontrar txnsC1 chartC1 none none).result = [Val.vstr "Receita Vendas"] := by
  constructor
  · constructor
    · exact (C1_amended txnsC1 chartC1 "Categoria" (by decide) (by decide)
        (by decide) (Val.vstr "Receita Vendas")).mpr (by decide)
    · decide
  · decide

/-! ## Claim C3 -/

/-- C3 (counterexample to the claim as stated): with the required category
column absent from the transactions table, `find_inconsistent` does not
surface an exception to the caller — it returns the normal empty result
(the failure is only shown in the UI). -/
theorem C3_counterexample :
    txnsSemCategoria.hasCol "Categoria" = false ∧
    (encontrar txnsSemCategoria chartC1 none none).result = ([] : List Val) := by
  refine ⟨by decide, by decide⟩

/-- C3 (amended): when the required transaction category column is missing or
no chart category column is discoverable, the failure is reported (an error
message is emitted) but the caller receives an empty list; no exception
propagates. -/
theorem C3_amended (txns chart : DF)
    (h : txns.hasCol "Categoria" = false ∨ encontrarColunaCategoria chart = []) :
    (encontrar txns chart none none).result = [] ∧
      (encontrar txns chart none none).erros ≠ [] := by
  unfold encontrar
  rcases h with h | h
  · cases hd : (encontrarColunaCategoria chart).head? with
    | none => simp [hd]
    | some c0 =>
      have hcc : chart.hasCol c0 = true :=
        hasCol_of_mem_encontrarColunaCategoria (mem_of_head?_eq_some hd)
      simp [hd, hcc, h, Option.getD]
  · simp [h]

/-- C3 witness: the amended behaviour at a concrete table missing the
"Categoria" column. -/
theorem C3_amended_witness :
    (encontrar txnsSemCategoria chartNope none none).result = [] ∧
      (encontrar txnsSemCategoria chartNope none none).erros ≠ [] :=
  C3_amended txnsSemCategoria chartNope (Or.inl (by decide))

/-! ## Claim C4 -/

/-- C4: `_aplicar_mapeamento_categorias` preserves the column set, the row
count and the row order; every column other than the discovered category
column is unchanged on every row, and the category column is unchanged on
rows whose value is not a mapping key. -/
theorem C4_frame (df : DF) (m : List (String × String)) (c : String)
    (rest : List String) (hc : colunasCategoria df = c :: rest) :
    (aplicarMapeamento df m).cols = df.cols ∧
    (aplicarMapeamento df m).rows.length = df.rows.length ∧
    ∀ i r, df.rows.get? i = some r →
      ∃ r2, (aplicarMapeamento df m).rows.get? i = some r2 ∧
        (∀ x, x ≠ c → r2 x = r x) ∧
        ((∀ p ∈ m, r c ≠ Val.vstr p.1) → r2 c = r c) := by
  unfold aplicarMapeamento
  rw [hc]
  refine ⟨rfl, by simp, ?_⟩
  intro i r hr
  refine ⟨r.update c (m.foldl mapStep (r c)), ?_, ?_, ?_⟩
  · have hmap : (df.rows.map (fun r => r.update c (m.foldl mapStep (r c)))).get? i =
        (df.rows.get? i).map (fun r => r.update c (m.foldl mapStep (r c))) := by
      simp
    rw [hmap, hr]
    rfl
  · intro x hx
    simp [Row.update, hx]
  · intro hk
    simp [Row.update, foldl_mapStep_of_not_key m (r c) hk]

/-- C4 witness: the frame property at a concrete two-row table with a
single-entry mapping. -/
theorem C4_frame_witness :
    (aplicarMapeamento lancC4 [("Receita Vendas", "Receita de Vendas")]).cols =
      lancC4.cols ∧
    (aplicarMapeamento lancC4
        [("Receita Vendas", "Receita de Vendas")]).rows.length =
      lancC4.rows.length ∧
    ((aplicarMapeamento lancC4 [("Receita Vendas", "Receita de Vendas")]).rows.map
      (fun r => r "Valor")) = [Val.vint 10, Val.vint 7] := by
  have h := C4_frame lancC4 [("Receita Vendas", "Receita de Vendas")]
    "Categoria" [] (by decide)
  exact ⟨h.1, h.2.1, by decide⟩

/-! ## Claim C6 -/

/-- C6 (counterexample to the claim as stated): a chart whose only column is
"Nome" with the entry "ÁGUA" (no `" - "` code prefix) yields a row whose
Code is blank, so the derived categories table does not always have a
non-blank Code on every row. -/
theorem C6_counterexample :
    ((processarCategorias catSoNome).rows.get? 0).map
        (fun r => (r "Codigo", r "Nome")) =
      some (Val.vstr "", Val.vstr "ÁGUA") := by
  decide

/-- C6 (amended): the derived categories table always starts with the
Codigo and Nome columns (also for zero rows), the code source is tried in
the claimed order, and in the synthesize-sequential case (no code column, no
alias, no name column) each row's code is the non-blank sequential integer
`i + 1`; codes obtained by decomposing a name, however, are blank whenever
the name has no `" - "` code prefix, and codes copied from a source column
are as blank as their source. -/
theorem C6_amended (df : DF) :
    (∃ extras, (processarCategorias df).cols = "Codigo" :: "Nome" :: extras) ∧
    (df.hasCol "Codigo" = false → aliasCodigo df = none → df.hasCol "Nome" = false →
      ∀ i r, (processarCategorias df).rows.get? i = some r →
        r "Codigo" = Val.vint (Int.ofNat i + 1) ∧ r "Codigo" ≠ Val.vstr "") := by
  constructor
  · exact ⟨_, rfl⟩
  · intro h1 h2 h3 i r hr
    have hdec : (decide (("Nome" : String) = "Codigo")) = false := by decide
    unfold processarCategorias at hr
    simp only [h1, h2, h3, Bool.false_eq_true, if_false, setColVals_hasCol,
      hdec, Bool.or_false, Bool.false_or, DF.select] at hr
    split at hr <;>
    · simp only [DF.setColWith] at hr
      have hmap : ∀ (l : List Row) (g : Row → Val),
          (l.map (fun r => r.update "Nome" (g r))).get? i =
            (l.get? i).map (fun r => r.update "Nome" (g r)) := by
        intro l g
        simp
      rw [hmap, setColVals_rows_get?, get?_mapIdx] at hr
      cases h0 : df.rows.get? i with
      | none =>
        rw [h0] at hr
        simp at hr
      | some r0 =>
        rw [h0] at hr
        simp only [Option.map_some', Option.bind_some] at hr
        injection hr with hr
        rw [← hr]
        have hne : ¬(("Codigo" : String) = "Nome") := by decide
        constructor
        · simp [Row.update, hne]
        · simp [Row.update, hne]

/-- C6 witness: with neither code, alias nor name column the synthesized
codes are the non-blank integers 1, 2, … -/
theorem C6_amended_witness :
    ((processarCategorias catSemNada).rows.get? 0).map (fun r => r "Codigo") =
      some (Val.vint 1) ∧
    ((processarCategorias catSemNada).rows.get? 1).map (fun r => r "Codigo") =
      some (Val.vint 2) ∧
    (∃ extras, (processarCategorias catSemNada).cols = "Codigo" :: "Nome" :: extras) := by
  have h := C6_amended catSemNada
  refine ⟨?_, ?_, h.1⟩
  · cases hr : (processarCategorias catSemNada).rows.get? 0 with
    | none =>
      have hs : ((processarCategorias catSemNada).rows.get? 0).isSome = true := rfl
      rw [hr] at hs
      simp at hs
    | some r =>
      have hv := (h.2 (by decide) (by decide) (by decide) 0 r hr).1
      simpa using hv
  · cases hr : (processarCategorias catSemNada).rows.get? 1 with
    | none =>
      have hs : ((processarCategorias catSemNada).rows.get? 1).isSome = true := rfl
      rw [hr] at hs
      simp at hs
    | some r =>
      have hv := (h.2 (by decide) (by decide) (by decide) 1 r hr).1
      simpa using hv

/-! ## Claim C7 -/

/-- C7: `_garantir_colunas` returns a table whose columns are exactly the
required list in the required order (extras dropped), with previously
missing columns blank and present columns unchanged, preserving the row
count; it is pure and total, and idempotent for a duplicate-free required
list. -/
theorem C7_enforce (df : DF) (lst : List String) (hnd : lst.Nodup) :
    (garantirColunas df lst).cols = lst ∧
    (garantirColunas df lst).rows.length = df.rows.length ∧
    (∀ i r, df.rows.get? i = some r →
      ∃ r2, (garantirColunas df lst).rows.get? i = some r2 ∧
        ∀ c ∈ lst, r2 c = if df.hasCol c = true then r c else Val.vstr "") ∧
    garantirColunas (garantirColunas df lst) lst = garantirColunas df lst := by
  have hfil : lst.filter
      (fun c => (addMissing (fun _ => Val.vstr "") df lst).hasCol c) = lst := by
    apply List.filter_eq_self.mpr
    intro c hc
    rw [addMissing_hasCol]
    simp [hc]
  have hcols : (garantirColunas df lst).cols = lst := by
    unfold garantirColunas
    simpa [DF.select] using hfil
  refine ⟨hcols, ?_, ?_, ?_⟩
  · unfold garantirColunas
    simp only [DF.select]
    exact addMissing_rows_length _ _ _
  · intro i r hr
    refine ⟨(fun x => if df.hasCol x = false ∧ x ∈ lst then Val.vstr "" else r x),
      ?_, ?_⟩
    · unfold garantirColunas
      simp only [DF.select]
      rw [addMissing_rows_get?, hr]
      rfl
    · intro c hc
      by_cases h : df.hasCol c = true
      · simp [h]
      · have h2 : df.hasCol c = false := by
          rw [← Bool.not_eq_true]
          exact h
        simp [h, h2, hc]
  · have hall2 : ∀ c ∈ lst, (garantirColunas df lst).hasCol c = true := by
      intro c hc
      unfold DF.hasCol
      rw [hcols, contains_eq_decide_mem]
      simp [hc]
    have h5 : addMissing (fun _ => Val.vstr "") (garantirColunas df lst) lst =
        garantirColunas df lst := addMissing_of_all_present _ _ _ hall2
    have h6 : lst.filter (fun c => (garantirColunas df lst).hasCol c) = lst :=
      List.filter_eq_self.mpr hall2
    show (addMissing (fun _ => Val.vstr "") (garantirColunas df lst) lst).select
        (lst.filter (fun c =>
          (addMissing (fun _ => Val.vstr "") (garantirColunas df lst) lst).hasCol c)) =
      garantirColunas df lst
    rw [h5, h6]
    exact DF_eq_of _ _ (by rw [select_cols, hcols]) rfl

/-- C7 witness: exact columns and idempotence at a concrete table with one
extra and two missing required columns. -/
theorem C7_enforce_witness :
    (garantirColunas tabelaC7 ["Codigo", "Nome", "Ativo"]).cols =
      ["Codigo", "Nome", "Ativo"] ∧
    garantirColunas (garantirColunas tabelaC7 ["Codigo", "Nome", "Ativo"])
        ["Codigo", "Nome", "Ativo"] =
      garantirColunas tabelaC7 ["Codigo", "Nome", "Ativo"] := by
  have h := C7_enforce tabelaC7 ["Codigo", "Nome", "Ativo"] (by decide)
  exact ⟨h.1, h.2.2.2⟩

/-! ## Claim C8 -/

/-- C8: in a transfers table with the movement column, every row's movement
value of the form `"<source> para <destination>"` yields Conta Débito equal
to the trimmed source and Conta Crédito equal to the trimmed destination
(split at the first `" para "`), and every value without `" para "`
(including missing values) yields two blanks. -/
theorem C8_transfer_split (hoje : String) (df : DF)
    (hm : df.hasCol "Movimentação" = true) :
    ∀ i r, df.rows.get? i = some r →
      ∃ r2, (processarTransferencias hoje df).rows.get? i = some r2 ∧
        r2 "Conta Débito" = Val.vstr (movSplit (r "Movimentação")).1 ∧
        r2 "Conta Crédito" = Val.vstr (movSplit (r "Movimentação")).2 := by
  intro i r hr
  have hr2 : df.rows[i]? = some r := by simpa using hr
  have hrows : df.rows.isEmpty = false := by
    cases hl : df.rows with
    | nil =>
      rw [hl] at hr
      simp at hr
    | cons a as => simp
  have hmem : "Movimentação" ∈ df.cols := by
    have h2 := hm
    unfold DF.hasCol at h2
    rw [contains_eq_decide_mem] at h2
    simpa using h2
  have hcols : df.cols.isEmpty = false := by
    cases hc : df.cols with
    | nil =>
      rw [hc] at hmem
      simp at hmem
    | cons a as => simp
  have hdeb : ((df.getCol "Movimentação").map
      (fun v => Val.vstr (movSplit v).1)).get? i =
        some (Val.vstr (movSplit (r "Movimentação")).1) := by
    unfold DF.getCol
    simp only [List.get?_eq_getElem?, List.getElem?_map, hr2]
    rfl
  have hcred : ((df.getCol "Movimentação").map
      (fun v => Val.vstr (movSplit v).2)).get? i =
        some (Val.vstr (movSplit (r "Movimentação")).2) := by
    unfold DF.getCol
    simp only [List.get?_eq_getElem?, List.getElem?_map, hr2]
    rfl
  unfold processarTransferencias
  rw [if_neg (by simp [hrows, hcols]), if_pos hm]
  rw [select_rows, addMissing_rows_get?, dropColumn_rows]
  rw [setColVals_rows_get?, setColVals_rows_get?, hr, hdeb, hcred]
  simp only [Option.some_bind, Option.map_some', Option.bind_some]
  refine ⟨_, rfl, ?_, ?_⟩
  · have hhas : (((df.setColVals "Conta Débito"
        ((df.getCol "Movimentação").map
          (fun v => Val.vstr (movSplit v).1))).setColVals "Conta Crédito"
        ((df.getCol "Movimentação").map
          (fun v => Val.vstr (movSplit v).2))).dropColumn
        "Movimentação").hasCol "Conta Débito" = true := by
      rw [dropColumn_hasCol, setColVals_hasCol, setColVals_hasCol]
      simp
    have hne : ("Conta Débito" : String) ≠ "Conta Crédito" := by decide
    simp only [hhas]
    simp [Row.update, hne]
  · have hhas : (((df.setColVals "Conta Débito"
        ((df.getCol "Movimentação").map
          (fun v => Val.vstr (movSplit v).1))).setColVals "Conta Crédito"
        ((df.getCol "Movimentação").map
          (fun v => Val.vstr (movSplit v).2))).dropColumn
        "Movimentação").hasCol "Conta Crédito" = true := by
      rw [dropColumn_hasCol, setColVals_hasCol, setColVals_hasCol]
      simp
    simp only [hhas]
    simp [Row.update]

/-- C8 witness: the movement "Banco A para Banco B" produces Conta
Débito = "Banco A" and Conta Crédito = "Banco B". -/
theorem C8_transfer_split_witness :
    ∃ r2, (processarTransferencias "09/10/2026" transfC8).rows.get? 0 = some r2 ∧
      r2 "Conta Débito" = Val.vstr "Banco A" ∧
      r2 "Conta Crédito" = Val.vstr "Banco B" := by
  cases hr : transfC8.rows.get? 0 with
  | none =>
    have hs : (transfC8.rows.get? 0).isSome = true := rfl
    rw [hr] at hs
    simp at hs
  | some r =>
    obtain ⟨r2, h1, h2, h3⟩ :=
      C8_transfer_split "09/10/2026" transfC8 (by decide) 0 r hr
    have hv : movSplit (r "Movimentação") = ("Banco A", "Banco B") := by
      have hrr : r "Movimentação" = Val.vstr "Banco A para Banco B" := by
        have : transfC8.rows.get? 0 = some (mkRowFn
            [("Movimentação", Val.vstr "Banco A para Banco B"),
             ("Valor", Val.vint 3)]) := rfl
        rw [this] at hr
        injection hr with hr
        rw [← hr]
        rfl
      rw [hrr]
      decide
    exact ⟨r2, h1, by rw [h2, hv], by rw [h3, hv]⟩

/-! ## Claim C9 -/

/-- C9 (counterexample to the claim as stated): for a date written
month/day/year, the claimed %m/%d/%Y fallback parses it (so the claim
predicts the opening date 24/12/2024), but the program's retry stages
re-parse the column that the first %d/%m/%Y coercion overwrote with NaT,
so the account's opening date comes out blank. -/
theorem C9_counterexample :
    ((processarContasCorrentes lancMDY).rows.get? 0).map
        (fun r => (r "Nome", r "DataInicial")) =
      some (Val.vstr "B1", Val.vstr "") ∧
    parseMDY "12/25/2024" = some (Val.vdate 2024 12 25) ∧
    stagedParse (lancMDY.getCol "Data") = [none] ∧
    stagedParseSpec autoNone (lancMDY.getCol "Data") =
      [some (Val.vdate 2024 12 25)] ∧
    Val.vstr (fmtDMY 2024 12 24) ≠ Val.vstr "" := by
  refine ⟨by decide, by decide, by decide, by decide, by decide⟩

/-- C9 (amended): the fallback parse stages are dead â the staged parse
equals the plain column-level %d/%m/%Y coercion â and with a discovered
account column and date-like column, the accounts output lists the distinct
non-missing accounts in first-seen order, each account's opening date being
the earliest so-parsed transaction date referencing it minus one day
(formatted %d/%m/%Y); an account none of whose referenced dates parsed gets
a blank opening date and no error is raised. -/
theorem C9_amended (df : DF) (cc dc : String)
    (hcc : df.cols.find? isContaCol = some cc)
    (hdc : df.cols.find? isDataCol = some dc) :
    (∀ raw : List Val, stagedParse raw = raw.map (parseCell parseDMY)) ∧
    ∀ i a, (contasCC df cc dc).get? i = some a →
      ((processarContasCorrentes df).rows.get? i).map
          (fun r => (r "Nome", r "Tipo", r "DataInicial")) =
        some (a, Val.vint 1,
          dataInicialDaConta (rowsParsedCC df dc) cc dc a) ∧
      (datasDaConta (rowsParsedCC df dc) cc dc a = [] →
        dataInicialDaConta (rowsParsedCC df dc) cc dc a = Val.vstr "") := by
  constructor
  · intro raw
    have hid : reparseDatetime = id := by
      funext o
      cases o <;> rfl
    unfold stagedParse
    simp [hid]
  · intro i a ha
    constructor
    · have hne : (contasCC df cc dc).isEmpty = false := by
        cases h : contasCC df cc dc with
        | nil =>
          rw [h] at ha
          simp at ha
        | cons x xs => simp
      unfold processarContasCorrentes
      rw [hcc, hdc]
      simp only [hne, Bool.false_eq_true, if_false]
      rw [get?_mapIdx, ha]
      simp only [Option.map_some']
      rfl
    · intro h
      unfold dataInicialDaConta
      rw [h]
      rfl

/-- C9 witness: account B1 (earliest %d/%m/%Y date 02/01/2024) opens at
01/01/2024; account B2, whose only date parses under no effective stage,
gets a blank opening date. -/
theorem C9_amended_witness :
    ((processarContasCorrentes lancC9).rows.get? 0).map
        (fun r => (r "Nome", r "Tipo", r "DataInicial")) =
      some (Val.vstr "B1", Val.vint 1, Val.vstr "01/01/2024") ∧
    ((processarContasCorrentes lancC9).rows.get? 1).map
        (fun r => (r "Nome", r "Tipo", r "DataInicial")) =
      some (Val.vstr "B2", Val.vint 1, Val.vstr "") ∧
    stagedParse (lancC9.getCol "Data") =
      (lancC9.getCol "Data").map (parseCell parseDMY) := by
  have h := C9_amended lancC9 "Conta" "Data" (by decide) (by decide)
  have h0 := (h.2 0 (Val.vstr "B1") (by decide)).1
  have h1 := (h.2 1 (Val.vstr "B2") (by decide)).1
  refine ⟨?_, ?_, h.1 (lancC9.getCol "Data")⟩
  · rw [h0]
    decide
  · rw [h1]
    decide

end V1Vyco
